import Mathlib

/-!
Verification of the connection-management core of a QUIC endpoint
(server/client dispatch, peer registry, stateless retry address validation).

Modelling conventions:
* Bytes are `Nat`s; byte strings are `List Nat`.
* A network address is represented by the byte string of its textual form
  (the code only ever uses `addr.String()`, as AEAD additional data).
* The AEAD primitive (`crypto/cipher.AEAD`, AES-GCM in the code) is an
  external collaborator; it is modelled as a structure bundling the standard
  AEAD contract (ciphertext length, round trip, authenticity).
* Time is the Unix-seconds clock value (`time.Now().Unix()`), a `Nat`.
* Externally-decided outcomes (header decoding by `transport`, success of
  `transport.Accept`/`transport.Connect`, socket sends, random CID bytes)
  are passed in as oracle arguments.
-/

/-- `binary.BigEndian.PutUint32` of `uint32(v)`: the four big-endian bytes of
`v` truncated to 32 bits. -/
def putUint32BE (v : Nat) : List Nat :=
  [v / 2 ^ 24 % 256, v / 2 ^ 16 % 256, v / 2 ^ 8 % 256, v % 256]

/-- `binary.BigEndian.Uint32` reading the first four bytes of a byte string
(absent bytes read as 0; the code only calls it on strings of length ≥ 4). -/
def beUint32 (l : List Nat) : Nat :=
  l.getD 0 0 * 2 ^ 24 + l.getD 1 0 * 2 ^ 16 + l.getD 2 0 * 2 ^ 8 + l.getD 3 0

/-- Abstract AEAD primitive (the `cipher.AEAD` collaborator, AES-GCM in the
code), bundled with the standard AEAD contract: sealing adds a fixed
overhead, opening a sealed value with the same nonce and additional data
recovers the plaintext, and a successful open identifies the sealed value
(ideal authenticity), which pins down the additional data. -/
structure AEAD where
  overhead : Nat
  Seal : List Nat → List Nat → List Nat → List Nat
  Open : List Nat → List Nat → List Nat → Option (List Nat)
  seal_length : ∀ n p a, (Seal n p a).length = p.length + overhead
  open_seal : ∀ n p a, Open n (Seal n p a) a = some p
  open_auth : ∀ n c a p, Open n c a = some p → c = Seal n p a
  seal_ad_inj : ∀ n n' p p' a a', Seal n p a = Seal n' p' a' → a = a'

/-- `addressValidator.Generate`: the token is the 4-byte big-endian current
time followed by the AEAD-sealed odcid; the nonce is the same 4 time bytes
followed by the tail of the validator's random nonce secret, and the
additional data is the sender's textual address. -/
def Generate (A : AEAD) (secret : List Nat) (now : Nat) (addr : List Nat)
    (odcid : List Nat) : List Nat :=
  putUint32BE now ++ A.Seal (putUint32BE now ++ secret.drop 4) odcid addr

/-- `addressValidator.Validate`: reject tokens shorter than 4 bytes, reject
timestamps outside the 10-second window `[now - 10, now]`, then attempt
authenticated decryption with the rebuilt nonce and the sender's textual
address as additional data; any failure yields the empty (invalid) result. -/
def Validate (A : AEAD) (secret : List Nat) (now : Nat) (addr : List Nat)
    (token : List Nat) : List Nat :=
  if token.length < 4 then []
  else if (beUint32 token : Int) < (now : Int) - 10 ∨ (beUint32 token : Int) > (now : Int) then []
  else
    match A.Open (token.take 4 ++ secret.drop 4) (token.drop 4) addr with
    | none => []
    | some odcid => odcid

/-! ### Dispatch, admission and the peer registry -/

/-- `transport.ProtocolVersion`. -/
def ProtocolVersion : Nat := 0xff000000 + 29

/-- `transport.MaxCIDLength`. -/
def MaxCIDLength : Nat := 20

/-- `transport.MinInitialPacketSize`. -/
def MinInitialPacketSize : Nat := 1200

/-- The routing fields of a decoded `transport.Header` (type 0 is Initial). -/
structure Header where
  typ : Nat
  version : Nat
  dcid : List Nat
  scid : List Nat
  token : List Nat
deriving DecidableEq

/-- A received datagram: its bytes and the sender's textual address. -/
structure Packet where
  data : List Nat
  addr : List Nat
deriving DecidableEq

/-- The peer registry `s.peers`: local CID key to connection handle (an id).
The code uses a map; we model it as an association list whose keys are kept
unique (see `RegNodup`). -/
abbrev Registry := List (List Nat × Nat)

/-- Map lookup on the association-list registry. -/
def lookupReg (k : List Nat) : Registry → Option Nat
  | [] => none
  | (k', v) :: rest => if k' = k then some v else lookupReg k rest

/-- Go's `delete(s.peers, k)`: remove the entries with key `k`. -/
def removeKey (k : List Nat) : Registry → Registry
  | [] => []
  | (k', v) :: rest => if k' = k then removeKey k rest else (k', v) :: removeKey k rest

/-- The registry keys are pairwise distinct (a map never holds two values
for one key). -/
abbrev RegNodup (reg : Registry) : Prop := (reg.map Prod.fst).Nodup

/-- What a dispatch/admission step does with the triggering packet buffer
and socket. `freed` is a `freePacket` call; `enqueued cid` hands the buffer
to connection `cid`'s inbound queue; `negotiated` and `retried` are the
version-negotiation and Retry replies; `admitted` marks the hand-off from
`Server.recv` to the `Server.handleNewConn` goroutine. -/
inductive REvent where
  | freed
  | enqueued (cid : List Nat)
  | negotiated
  | retried
  | admitted
deriving DecidableEq

/-- CID selection in `Server.newConn`: the new connection's local CID is the
`scid` argument when it already has the fixed length `MaxCIDLength` (the
caller passes the packet header's DCID for this argument), and fresh random
bytes otherwise. -/
def serverNewConnCID (scid randCID : List Nat) : List Nat :=
  if scid.length = MaxCIDLength then scid else randCID

/-- Result of `Client.Connect` (a nil return is `ok`). -/
inductive ConnectResult where
  | newConnErr
  | closedErr
  | conflictErr
  | sendErr
  | ok
deriving DecidableEq

/-- The tail of `Server.handleNewConn` after token validation: create the
connection (`Server.newConn`; success of `transport.Accept` is the
`acceptOk` oracle, the random CID bytes are `randCID`), then, under the
registry lock, drop if closing, drop on a local-CID conflict without
touching the existing entry, otherwise insert and hand the packet to the
new connection's queue. -/
def handleNewConnTail (randCID : List Nat) (acceptOk closing : Bool)
    (reg : Registry) (connId : Nat) (h : Header) : Registry × List REvent :=
  if ¬acceptOk then (reg, [.freed])
  else if closing then (reg, [.freed])
  else if (lookupReg (serverNewConnCID h.dcid randCID) reg).isSome then (reg, [.freed])
  else ((serverNewConnCID h.dcid randCID, connId) :: reg,
    [.enqueued (serverNewConnCID h.dcid randCID)])

/-- `Server.handleNewConn`: when a validator is set, an Initial without a
token triggers a Retry reply and is dropped; a token that fails `Validate`
is dropped; otherwise fall through to connection creation and registry
insertion. -/
def handleNewConn (A : AEAD) (secret : List Nat) (now : Nat) (hasValidator : Bool)
    (randCID : List Nat) (acceptOk closing : Bool) (reg : Registry) (connId : Nat)
    (h : Header) (addr : List Nat) : Registry × List REvent :=
  if hasValidator then
    if h.token = [] then (reg, [.retried, .freed])
    else if Validate A secret now addr h.token = [] then (reg, [.freed])
    else handleNewConnTail randCID acceptOk closing reg connId h
  else handleNewConnTail randCID acceptOk closing reg connId h

/-- `Server.recv` composed with the `handleNewConn` goroutine it spawns:
drop on header-decode failure or when closing; route known DCIDs to their
connection; for unknown DCIDs require an Initial type and the minimum
initial datagram size, answer unsupported versions with one
version-negotiation reply, and otherwise run admission. Returns the
resulting registry and the buffer/socket events. -/
def serverProcess (decode : List Nat → Option Header) (A : AEAD) (secret : List Nat)
    (now : Nat) (hasValidator : Bool) (randCID : List Nat) (acceptOk closing : Bool)
    (reg : Registry) (connId : Nat) (p : Packet) : Registry × List REvent :=
  match decode p.data with
  | none => (reg, [.freed])
  | some h =>
    if closing then (reg, [.freed])
    else if (lookupReg h.dcid reg).isSome then (reg, [.enqueued h.dcid])
    else if h.typ ≠ 0 ∨ p.data.length < MinInitialPacketSize then (reg, [.freed])
    else if h.version ≠ ProtocolVersion then (reg, [.negotiated, .freed])
    else
      let r := handleNewConn A secret now hasValidator randCID acceptOk closing reg connId h p.addr
      (r.1, .admitted :: r.2)

/-- `Client.recv`: drop on decode failure; when the endpoint is closing the
code returns without releasing the buffer (no `freed` event); route known
DCIDs; drop unknown destinations (clients never admit connections from
datagrams). -/
def clientRecv (decode : List Nat → Option Header) (closing : Bool)
    (reg : Registry) (p : Packet) : List REvent :=
  match decode p.data with
  | none => [.freed]
  | some h =>
    if closing then []
    else if (lookupReg h.dcid reg).isSome then [.enqueued h.dcid]
    else [.freed]

/-- `Client.Connect`: create the connection (success of `Client.newConn` is
the `newConnOk` oracle, the generated random CID is `cid`); under the
registry lock refuse when closing or on a CID conflict, else insert; send
the initial datagram (`sendOk` oracle) and on failure delete the inserted
entry and return the error. -/
def clientConnect (newConnOk : Bool) (cid : List Nat) (connId : Nat) (sendOk closing : Bool)
    (reg : Registry) : Registry × ConnectResult :=
  if ¬newConnOk then (reg, .newConnErr)
  else if closing then (reg, .closedErr)
  else if (lookupReg cid reg).isSome then (reg, .conflictErr)
  else if sendOk then ((cid, connId) :: reg, .ok)
  else (removeKey cid ((cid, connId) :: reg), .sendErr)

/-! ### A concrete AEAD instance, used only to evaluate the theorems on
concrete inputs. The tag is a single entry injectively encoding the nonce
and the additional data. -/

/-- Injective encoding of a byte string into a single natural number. -/
def encList : List Nat → Nat
  | [] => 0
  | x :: xs => Nat.pair x (encList xs) + 1

/-- Test cipher: the ciphertext is the plaintext followed by a one-entry tag
determined by the nonce and additional data. -/
def testSeal (n p a : List Nat) : List Nat :=
  p ++ [Nat.pair (encList n) (encList a)]

/-- Test decryption: check the tag against the given nonce and additional
data, and strip it. -/
def testOpen (n c a : List Nat) : Option (List Nat) :=
  if c.getLast? = some (Nat.pair (encList n) (encList a)) then some c.dropLast else none

/-- Concrete AEAD used to instantiate the abstract theorems on concrete
inputs. -/
def testAEAD : AEAD where
  overhead := 1
  Seal := testSeal
  Open := testOpen
  seal_length := fun _ p _ => by simp [testSeal]
  open_seal := fun n p a => by
    simp [testOpen, testSeal, List.getLast?_concat, List.dropLast_concat]
  open_auth := fun n c a p h => by
    rw [testOpen] at h
    split at h
    · next hl =>
      obtain rfl : c.dropLast = p := by simpa using h
      rw [testSeal]
      exact (List.dropLast_append_getLast? _ (Option.mem_def.mpr hl)).symm
    · exact absurd h (by simp)
  seal_ad_inj := fun n n' p p' a a' h => by
    have ht : Nat.pair (encList n) (encList a) = Nat.pair (encList n') (encList a') := by
      have hg := congrArg List.getLast? h
      rwa [testSeal, testSeal, List.getLast?_concat, List.getLast?_concat,
        Option.some.injEq] at hg
    have henc : encList a = encList a' := (Nat.pair_eq_pair.mp ht).2
    clear h ht
    induction a generalizing a' with
    | nil =>
      cases a' with
      | nil => rfl
      | cons y ys => simp [encList] at henc
    | cons x xs ih =>
      cases a' with
      | nil => simp [encList] at henc
      | cons y ys =>
        simp only [encList, Nat.add_right_cancel_iff] at henc
        obtain ⟨h1, h2⟩ := Nat.pair_eq_pair.mp henc
        rw [h1, ih ys h2]

/-! ### Supporting lemmas -/

theorem putUint32BE_length (v : Nat) : (putUint32BE v).length = 4 := rfl

theorem beUint32_putUint32BE_append (v : Nat) (rest : List Nat) :
    beUint32 (putUint32BE v ++ rest) = v % 2 ^ 32 := by
  simp only [putUint32BE, beUint32, List.cons_append, List.nil_append,
    List.getD_cons_zero, List.getD_cons_succ]
  omega

theorem generate_take (A : AEAD) (secret : List Nat) (now : Nat) (addr odcid : List Nat) :
    (Generate A secret now addr odcid).take 4 = putUint32BE now := by
  have h := List.take_left (putUint32BE now) (A.Seal (putUint32BE now ++ secret.drop 4) odcid addr)
  rwa [putUint32BE_length] at h

theorem generate_drop (A : AEAD) (secret : List Nat) (now : Nat) (addr odcid : List Nat) :
    (Generate A secret now addr odcid).drop 4
      = A.Seal (putUint32BE now ++ secret.drop 4) odcid addr := by
  have h := List.drop_left (putUint32BE now) (A.Seal (putUint32BE now ++ secret.drop 4) odcid addr)
  rwa [putUint32BE_length] at h

theorem generate_length (A : AEAD) (secret : List Nat) (now : Nat) (addr odcid : List Nat) :
    (Generate A secret now addr odcid).length = 4 + odcid.length + A.overhead := by
  simp [Generate, A.seal_length, putUint32BE_length]
  omega

theorem generate_timestamp (A : AEAD) (secret : List Nat) (now : Nat) (addr odcid : List Nat) :
    beUint32 (Generate A secret now addr odcid) = now % 2 ^ 32 :=
  beUint32_putUint32BE_append now _

/-- Core round trip: a token generated at time `t` validates at any time
`t'` inside the window `[t, t + 10]` (as long as the clock has not outrun
the 32-bit timestamp field) and yields the original odcid. -/
theorem validate_generate (A : AEAD) (secret : List Nat) (t t' : Nat)
    (addr odcid : List Nat) (hlt : t < 2 ^ 32) (h1 : t ≤ t') (h2 : t' ≤ t + 10) :
    Validate A secret t' addr (Generate A secret t addr odcid) = odcid := by
  have hts : beUint32 (Generate A secret t addr odcid) = t := by
    rw [generate_timestamp, Nat.mod_eq_of_lt hlt]
  have hlen : ¬ (Generate A secret t addr odcid).length < 4 := by
    rw [generate_length]; omega
  rw [Validate, if_neg hlen, hts]
  have hwin : ¬ ((t : Int) < (t' : Int) - 10 ∨ (t : Int) > (t' : Int)) := by omega
  rw [if_neg hwin, generate_take, generate_drop, A.open_seal]

/-- A token generated for one textual address never validates for a
different textual address, at any pair of times: the address is the AEAD
additional data, so authenticated decryption fails. -/
theorem validate_wrong_addr (A : AEAD) (secret : List Nat) (t t' : Nat)
    (addr addr' odcid : List Nat) (hne : addr' ≠ addr) :
    Validate A secret t' addr' (Generate A secret t addr odcid) = [] := by
  rw [Validate]
  by_cases h4 : (Generate A secret t addr odcid).length < 4
  · rw [if_pos h4]
  · rw [if_neg h4]
    by_cases hw : (beUint32 (Generate A secret t addr odcid) : Int) < (t' : Int) - 10 ∨
        (beUint32 (Generate A secret t addr odcid) : Int) > (t' : Int)
    · rw [if_pos hw]
    · rw [if_neg hw]
      cases heq : A.Open ((Generate A secret t addr odcid).take 4 ++ secret.drop 4)
          ((Generate A secret t addr odcid).drop 4) addr' with
      | none => rfl
      | some q =>
        exfalso
        rw [generate_drop] at heq
        exact hne (A.seal_ad_inj _ _ _ _ _ _ (A.open_auth _ _ _ _ heq).symm)

theorem lookupReg_eq_none_iff (k : List Nat) :
    ∀ reg : Registry, lookupReg k reg = none ↔ k ∉ reg.map Prod.fst
  | [] => by simp [lookupReg]
  | (k', v) :: rest => by
    by_cases hk : k' = k
    · subst hk
      simp [lookupReg]
    · simp only [lookupReg, if_neg hk, List.map_cons, List.mem_cons]
      rw [lookupReg_eq_none_iff k rest]
      constructor
      · rintro hn (h1 | h2)
        · exact hk h1.symm
        · exact hn h2
      · intro hn
        exact fun h2 => hn (Or.inr h2)

theorem removeKey_of_lookup_none (k : List Nat) :
    ∀ reg : Registry, lookupReg k reg = none → removeKey k reg = reg
  | [], _ => rfl
  | (k', v) :: rest, h => by
    rw [lookupReg] at h
    split at h
    · exact absurd h (by simp)
    · next hk =>
      rw [removeKey, if_neg hk, removeKey_of_lookup_none k rest h]

theorem regNodup_insert (k : List Nat) (v : Nat) (reg : Registry)
    (hn : RegNodup reg) (hk : lookupReg k reg = none) : RegNodup ((k, v) :: reg) := by
  rw [RegNodup, List.map_cons, List.nodup_cons]
  exact ⟨(lookupReg_eq_none_iff k reg).mp hk, hn⟩

theorem handleNewConnTail_nodup (randCID : List Nat) (acceptOk closing : Bool)
    (reg : Registry) (connId : Nat) (h : Header) (hn : RegNodup reg) :
    RegNodup (handleNewConnTail randCID acceptOk closing reg connId h).1 := by
  rw [handleNewConnTail]
  split
  · exact hn
  · split
    · exact hn
    · split
      · exact hn
      · next hns =>
        exact regNodup_insert _ _ _ hn
          (Option.not_isSome_iff_eq_none.mp (by simpa using hns))

/-! ### The claims -/

/-- Claim C1: for every network address and every non-empty original DCID,
a token produced by `Generate(addr, odcid)` passed to `Validate(addr, ·)`
at the same (or the immediately following) second returns exactly `odcid`,
not the invalid (empty) result — provided the Unix clock still fits the
32-bit timestamp field (the code's documented wraparound limitation). -/
theorem claim_C1 (A : AEAD) (secret : List Nat) (now t' : Nat) (addr odcid : List Nat)
    (hne : odcid ≠ []) (hclock : now < 2 ^ 32) (h1 : now ≤ t') (h2 : t' ≤ now + 1) :
    Validate A secret t' addr (Generate A secret now addr odcid) = odcid ∧
      Validate A secret t' addr (Generate A secret now addr odcid) ≠ [] := by
  have h := validate_generate A secret now t' addr odcid hclock h1 (by omega)
  exact ⟨h, by rw [h]; exact hne⟩

theorem claim_C1_witness :
    ([1] : List Nat) ≠ [] ∧ (5 : Nat) < 2 ^ 32 ∧
      Validate testAEAD [0, 0, 0, 0] 5 [9] (Generate testAEAD [0, 0, 0, 0] 5 [9] [1]) = [1] :=
  ⟨by decide, by decide,
    (claim_C1 testAEAD [0, 0, 0, 0] 5 5 [9] [1] (by decide) (by decide)
      (by decide) (by decide)).1⟩

/-- Claim C2: `Validate` rejects tokens shorter than the 4-byte timestamp
field, rejects embedded timestamps more than 10 seconds before the current
time, rejects future timestamps, and a token issued 1 second ago is not
rejected (it validates to its odcid). -/
theorem claim_C2 (A : AEAD) (secret : List Nat) (now : Nat) (addr : List Nat)
    (hclock : now < 2 ^ 32) :
    (∀ token : List Nat, token.length < 4 → Validate A secret now addr token = []) ∧
    (∀ token : List Nat, (beUint32 token : Int) < (now : Int) - 10 →
      Validate A secret now addr token = []) ∧
    (∀ token : List Nat, (beUint32 token : Int) > (now : Int) →
      Validate A secret now addr token = []) ∧
    (∀ odcid : List Nat,
      Validate A secret (now + 1) addr (Generate A secret now addr odcid) = odcid) := by
  refine ⟨fun token h => by rw [Validate, if_pos h], ?_, ?_, ?_⟩
  · intro token h
    rw [Validate]
    split
    · rfl
    · rw [if_pos (Or.inl h)]
  · intro token h
    rw [Validate]
    split
    · rfl
    · rw [if_pos (Or.inr h)]
  · intro odcid
    exact validate_generate A secret now (now + 1) addr odcid hclock (by omega) (by omega)

theorem claim_C2_witness :
    (20 : Nat) < 2 ^ 32 ∧
    Validate testAEAD [0, 0, 0, 0] 20 [9] [0, 0] = [] ∧
    Validate testAEAD [0, 0, 0, 0] 20 [9] [0, 0, 0, 5, 7] = [] ∧
    Validate testAEAD [0, 0, 0, 0] 20 [9] [0, 0, 0, 99, 7] = [] ∧
    Validate testAEAD [0, 0, 0, 0] 21 [9] (Generate testAEAD [0, 0, 0, 0] 20 [9] [1]) = [1] := by
  have h := claim_C2 testAEAD [0, 0, 0, 0] 20 [9] (by decide)
  exact ⟨by decide, h.1 _ (by decide), h.2.1 _ (by decide), h.2.2.1 _ (by decide),
    h.2.2.2 [1]⟩

/-- Claim C3: a token generated for one textual address validates as
invalid (empty) under any different textual address, at any validation
time — the address is the AEAD additional data — and never yields a
partial result. -/
theorem claim_C3 (A : AEAD) (secret : List Nat) (t t' : Nat)
    (addr1 addr2 odcid : List Nat) (hne : addr2 ≠ addr1) :
    Validate A secret t' addr2 (Generate A secret t addr1 odcid) = [] :=
  validate_wrong_addr A secret t t' addr1 addr2 odcid hne

theorem claim_C3_witness :
    ([8] : List Nat) ≠ [9] ∧
      Validate testAEAD [0, 0, 0, 0] 5 [8] (Generate testAEAD [0, 0, 0, 0] 5 [9] [1]) = [] :=
  ⟨by decide, claim_C3 testAEAD [0, 0, 0, 0] 5 5 [9] [8] [1] (by decide)⟩

/-- Claim C4: a datagram whose DCID is unknown and whose decoded type is
not Initial, or whose total length is below `MinInitialPacketSize`, is
dropped (buffer freed once) with no admission step and no registry
change, whatever the rest of the header says. -/
theorem claim_C4 (decode : List Nat → Option Header) (A : AEAD) (secret : List Nat)
    (now : Nat) (hasValidator : Bool) (randCID : List Nat) (acceptOk closing : Bool)
    (reg : Registry) (connId : Nat) (p : Packet) (h : Header)
    (hdec : decode p.data = some h) (hun : lookupReg h.dcid reg = none)
    (hbad : h.typ ≠ 0 ∨ p.data.length < MinInitialPacketSize) :
    serverProcess decode A secret now hasValidator randCID acceptOk closing reg connId p
      = (reg, [REvent.freed]) := by
  cases closing with
  | true => simp [serverProcess, hdec]
  | false => simp [serverProcess, hdec, hun, hbad]

theorem claim_C4_witness :
    ((fun _ : List Nat => some (⟨1, 0, [3], [], []⟩ : Header)) [0, 0]
        = some (⟨1, 0, [3], [], []⟩ : Header)) ∧
    lookupReg [3] [] = none ∧
    ((1 : Nat) ≠ 0 ∨ ([0, 0] : List Nat).length < MinInitialPacketSize) ∧
    serverProcess (fun _ => some ⟨1, 0, [3], [], []⟩) testAEAD [] 0 false [] true false
        [] 7 ⟨[0, 0], [4]⟩ = ([], [REvent.freed]) :=
  ⟨rfl, by decide, by decide,
    claim_C4 (fun _ => some ⟨1, 0, [3], [], []⟩) testAEAD [] 0 false [] true false
      [] 7 ⟨[0, 0], [4]⟩ ⟨1, 0, [3], [], []⟩ rfl (by decide) (by decide)⟩

/-- Claim C5: an unknown-DCID datagram that passes the type and size checks
but declares an unsupported version yields exactly one version-negotiation
reply, the buffer is dropped, and the registry is unchanged (no
connection is created). -/
theorem claim_C5 (decode : List Nat → Option Header) (A : AEAD) (secret : List Nat)
    (now : Nat) (hasValidator : Bool) (randCID : List Nat) (acceptOk : Bool)
    (reg : Registry) (connId : Nat) (p : Packet) (h : Header)
    (hdec : decode p.data = some h) (hun : lookupReg h.dcid reg = none)
    (htyp : h.typ = 0) (hlen : ¬ p.data.length < MinInitialPacketSize)
    (hver : h.version ≠ ProtocolVersion) :
    serverProcess decode A secret now hasValidator randCID acceptOk false reg connId p
      = (reg, [REvent.negotiated, REvent.freed]) := by
  have hnot : ¬ (h.typ ≠ 0 ∨ p.data.length < MinInitialPacketSize) := by
    rintro (ht | hl)
    · exact ht htyp
    · exact hlen hl
  simp only [serverProcess, hdec]
  rw [if_neg (by simp), if_neg (by simp [hun]), if_neg hnot, if_pos hver]

set_option maxRecDepth 10000 in
theorem claim_C5_witness :
    ((fun _ : List Nat => some (⟨0, 7, [3], [], []⟩ : Header)) (List.replicate 1200 0)
        = some (⟨0, 7, [3], [], []⟩ : Header)) ∧
    lookupReg [3] [] = none ∧ (0 : Nat) = 0 ∧
    (¬ (List.replicate 1200 (0 : Nat)).length < MinInitialPacketSize) ∧
    (7 : Nat) ≠ ProtocolVersion ∧
    serverProcess (fun _ => some ⟨0, 7, [3], [], []⟩) testAEAD [] 0 false [] true false
        [] 7 ⟨List.replicate 1200 0, [4]⟩ = ([], [REvent.negotiated, REvent.freed]) :=
  ⟨rfl, by decide, rfl, by simp [MinInitialPacketSize], by decide,
    claim_C5 (fun _ => some ⟨0, 7, [3], [], []⟩) testAEAD [] 0 false [] true
      [] 7 ⟨List.replicate 1200 0, [4]⟩ ⟨0, 7, [3], [], []⟩ rfl (by decide) rfl
      (by simp [MinInitialPacketSize]) (by decide)⟩

/-- Claim C6: the registry never maps one local CID key to two connections.
On server admission a CID that is already a key makes the packet be dropped
with the existing entry untouched; on client `Connect` a colliding
generated CID yields an explicit conflict error without inserting; and both
operations preserve distinctness of the registry keys. -/
theorem claim_C6 :
    (∀ (randCID : List Nat) (reg : Registry) (connId : Nat) (h : Header),
      (lookupReg (serverNewConnCID h.dcid randCID) reg).isSome = true →
      handleNewConnTail randCID true false reg connId h = (reg, [REvent.freed])) ∧
    (∀ (cid : List Nat) (connId : Nat) (sendOk : Bool) (reg : Registry),
      (lookupReg cid reg).isSome = true →
      clientConnect true cid connId sendOk false reg = (reg, ConnectResult.conflictErr)) ∧
    (∀ (A : AEAD) (secret : List Nat) (now : Nat) (hasValidator : Bool) (randCID : List Nat)
      (acceptOk closing : Bool) (reg : Registry) (connId : Nat) (h : Header) (addr : List Nat),
      RegNodup reg →
      RegNodup (handleNewConn A secret now hasValidator randCID acceptOk closing
        reg connId h addr).1) ∧
    (∀ (newConnOk : Bool) (cid : List Nat) (connId : Nat) (sendOk closing : Bool)
      (reg : Registry),
      RegNodup reg → RegNodup (clientConnect newConnOk cid connId sendOk closing reg).1) := by
  refine ⟨?_, ?_, ?_, ?_⟩
  · intro randCID reg connId h hs
    simp [handleNewConnTail, hs]
  · intro cid connId sendOk reg hs
    simp [clientConnect, hs]
  · intro A secret now hasValidator randCID acceptOk closing reg connId h addr hn
    rw [handleNewConn]
    split
    · split
      · exact hn
      · split
        · exact hn
        · exact handleNewConnTail_nodup _ _ _ _ _ _ hn
    · exact handleNewConnTail_nodup _ _ _ _ _ _ hn
  · intro newConnOk cid connId sendOk closing reg hn
    rw [clientConnect]
    split
    · exact hn
    · split
      · exact hn
      · split
        · exact hn
        · next hns =>
          have hnone : lookupReg cid reg = none :=
            Option.not_isSome_iff_eq_none.mp (by simpa using hns)
          split
          · exact regNodup_insert _ _ _ hn hnone
          · rw [removeKey, if_pos rfl, removeKey_of_lookup_none _ _ hnone]
            exact hn

theorem claim_C6_witness :
    ((lookupReg (serverNewConnCID [9] (List.replicate 20 2))
        [(List.replicate 20 2, 5)]).isSome = true ∧
      handleNewConnTail (List.replicate 20 2) true false [(List.replicate 20 2, 5)] 7
        ⟨0, 0, [9], [], []⟩ = ([(List.replicate 20 2, 5)], [REvent.freed])) ∧
    ((lookupReg [3] [([3], 5)]).isSome = true ∧
      clientConnect true [3] 8 true false [([3], 5)] = ([([3], 5)], ConnectResult.conflictErr)) ∧
    (RegNodup [(List.replicate 20 2, 5)] ∧
      RegNodup (handleNewConn testAEAD [] 0 false (List.replicate 20 2) true false
        [(List.replicate 20 2, 5)] 7 ⟨0, 0, [9], [], []⟩ []).1) ∧
    (RegNodup [([3], 5)] ∧ RegNodup (clientConnect true [3] 8 true false [([3], 5)]).1) :=
  ⟨⟨by decide, claim_C6.1 (List.replicate 20 2) [(List.replicate 20 2, 5)] 7
      ⟨0, 0, [9], [], []⟩ (by decide)⟩,
    ⟨by decide, claim_C6.2.1 [3] 8 true [([3], 5)] (by decide)⟩,
    ⟨by decide, claim_C6.2.2.1 testAEAD [] 0 false (List.replicate 20 2) true false
      [(List.replicate 20 2, 5)] 7 ⟨0, 0, [9], [], []⟩ [] (by decide)⟩,
    ⟨by decide, claim_C6.2.2.2 true [3] 8 true false [([3], 5)] (by decide)⟩⟩

/-- Claim C7: in client `Connect`, when the generated CID is fresh, a send
failure of the initial datagram rolls the registry back to exactly its
previous value and returns the error, while a successful send leaves the
inserted entry in place and returns success (the model has no handshake
step: `Connect` completes with the initial send). -/
theorem claim_C7 (cid : List Nat) (connId : Nat) (reg : Registry)
    (hfree : lookupReg cid reg = none) :
    clientConnect true cid connId false false reg = (reg, ConnectResult.sendErr) ∧
    clientConnect true cid connId true false reg = ((cid, connId) :: reg, ConnectResult.ok) ∧
    lookupReg cid ((cid, connId) :: reg) = some connId := by
  have hrem : removeKey cid ((cid, connId) :: reg) = reg := by
    rw [removeKey, if_pos rfl, removeKey_of_lookup_none _ _ hfree]
  exact ⟨by simp [clientConnect, hfree, hrem], by simp [clientConnect, hfree],
    by simp [lookupReg]⟩

theorem claim_C7_witness :
    lookupReg [3] [([4], 9)] = none ∧
    clientConnect true [3] 8 false false [([4], 9)] = ([([4], 9)], ConnectResult.sendErr) ∧
    clientConnect true [3] 8 true false [([4], 9)] = ([([3], 8), ([4], 9)], ConnectResult.ok) ∧
    lookupReg [3] [([3], 8), ([4], 9)] = some 8 :=
  ⟨by decide, (claim_C7 [3] 8 [([4], 9)] (by decide)).1,
    (claim_C7 [3] 8 [([4], 9)] (by decide)).2.1, (claim_C7 [3] 8 [([4], 9)] (by decide)).2.2⟩

/-- Claim C8 counterexample: the claim says the new connection's local CID
is the client's SCID whenever that SCID has the required length. Here the
header's SCID has exactly `MaxCIDLength` bytes, yet admission registers the
freshly generated random CID, because the code derives the local CID from
the header's DCID (`s.newConn(p.addr, p.header.DCID, odcid)`), not from its
SCID. -/
theorem claim_C8_counterexample :
    (Header.scid ⟨0, ProtocolVersion, [5], List.replicate 20 1, []⟩).length = MaxCIDLength ∧
    handleNewConnTail (List.replicate 20 2) true false [] 7
        ⟨0, ProtocolVersion, [5], List.replicate 20 1, []⟩
      = ([(List.replicate 20 2, 7)], [REvent.enqueued (List.replicate 20 2)]) ∧
    List.replicate 20 2 ≠ List.replicate 20 1 := by decide

/-- Claim C8 as amended: the new connection's local CID is the packet
header's DCID whenever that DCID has exactly the fixed `MaxCIDLength`, and
a freshly generated random CID of that fixed length otherwise; admission
registers exactly that CID. -/
theorem claim_C8 (h : Header) (randCID : List Nat) (connId : Nat) (reg : Registry)
    (hrand : randCID.length = MaxCIDLength)
    (hnc : lookupReg (serverNewConnCID h.dcid randCID) reg = none) :
    handleNewConnTail randCID true false reg connId h
      = ((serverNewConnCID h.dcid randCID, connId) :: reg,
        [REvent.enqueued (serverNewConnCID h.dcid randCID)]) ∧
    (h.dcid.length = MaxCIDLength → serverNewConnCID h.dcid randCID = h.dcid) ∧
    (h.dcid.length ≠ MaxCIDLength → serverNewConnCID h.dcid randCID = randCID ∧
      (serverNewConnCID h.dcid randCID).length = MaxCIDLength) :=
  ⟨by simp [handleNewConnTail, hnc], fun hd => by simp [serverNewConnCID, hd],
    fun hd => by simp [serverNewConnCID, hd, hrand]⟩

theorem claim_C8_witness :
    (List.replicate 20 2 : List Nat).length = MaxCIDLength ∧
    lookupReg (serverNewConnCID [5] (List.replicate 20 2)) [] = none ∧
    handleNewConnTail (List.replicate 20 2) true false [] 7
        ⟨0, ProtocolVersion, [5], List.replicate 20 1, []⟩
      = ([(List.replicate 20 2, 7)], [REvent.enqueued (List.replicate 20 2)]) ∧
    serverNewConnCID [5] (List.replicate 20 2) = List.replicate 20 2 :=
  ⟨by decide, by decide,
    (claim_C8 ⟨0, ProtocolVersion, [5], List.replicate 20 1, []⟩ (List.replicate 20 2) 7 []
      (by decide) (by decide)).1,
    ((claim_C8 ⟨0, ProtocolVersion, [5], List.replicate 20 1, []⟩ (List.replicate 20 2) 7 []
      (by decide) (by decide)).2.2 (by decide)).1⟩

/-- Claim C9 is contradicted by the code: on the client role's
endpoint-closing exit path, `Client.recv` returns without calling
`freePacket`, so the buffer is released zero times instead of exactly
once. This evaluates the modelled `Client.recv` at such an input: a
decodable datagram arriving while the client is closing produces no
`freed` event. -/
theorem claim_C9_clientRecv_leak :
    clientRecv (fun _ => some ⟨0, 0, [1], [2], []⟩) true [] ⟨[7], [4]⟩ = [] ∧
    REvent.freed ∉ clientRecv (fun _ => some ⟨0, 0, [1], [2], []⟩) true [] ⟨[7], [4]⟩ := by
  decide

/-- Claim C10: a generated token's first four bytes are the big-endian
timestamp, the rest is exactly the AEAD-sealed odcid (tag included in the
sealing overhead), and the total length is 4 + |odcid| + overhead. -/
theorem claim_C10 (A : AEAD) (secret : List Nat) (now : Nat) (addr odcid : List Nat) :
    (Generate A secret now addr odcid).take 4 = putUint32BE now ∧
    beUint32 (Generate A secret now addr odcid) = now % 2 ^ 32 ∧
    (Generate A secret now addr odcid).drop 4
      = A.Seal (putUint32BE now ++ secret.drop 4) odcid addr ∧
    (Generate A secret now addr odcid).length = 4 + odcid.length + A.overhead :=
  ⟨generate_take A secret now addr odcid, generate_timestamp A secret now addr odcid,
    generate_drop A secret now addr odcid, generate_length A secret now addr odcid⟩
